import Mathlib

/-!
Shallow embedding of an employee CRUD service (FastAPI + SQLAlchemy + SQLite).

The handlers of src/api/routes.py are modelled as pure functions over an
explicit database state.  Conventions of the embedding:

* SQL floats are modelled as rationals, timestamps as natural numbers
  (the wall clock enters each operation as an explicit parameter).
* Python `Optional` values are `Option`; a nullable column is an `Option`
  field of the row.
* Pydantic's distinction between a field absent from a request body and a
  field explicitly set to `null` (`model_dump(exclude_unset=True)`) is a
  nested `Option (Option _)` on the update payload.
* Python truthiness on optional strings (`if search:`, `if employee.email:`)
  is modelled explicitly: `none` and `some ""` are both falsy.
* SQLAlchemy's unit of work only emits an UPDATE when some attribute has a
  net change; with no net change the `onupdate` clock column is untouched.
  An UPDATE that would null a NOT NULL column raises at commit time and is
  surfaced as a storage failure, leaving the table unchanged.
* `db.flush()` inside the bulk loop makes rows inserted earlier in the same
  batch visible to the duplicate-email query of later iterations.
-/

namespace ECS

/-- Row of the `employees` table (src/db/models.py).  The columns `name`,
`role`, `salary` are NOT NULL; `email` (UNIQUE), `department`,
`performance_rating`, `skills` are nullable; `created_at` is set by the
server default at insertion and `updated_at` by the `onupdate` clause. -/
structure Employee where
  id : Nat
  name : String
  role : String
  salary : Rat
  email : Option String
  department : Option String
  performance_rating : Option Rat
  skills : Option String
  created_at : Nat
  updated_at : Option Nat
deriving Repr, DecidableEq

/-- Database state: the `employees` table in insertion order together with
the autoincrement counter for primary keys. -/
structure DB where
  rows : List Employee
  nextId : Nat
deriving Repr, DecidableEq

/-- Validated creation payload (`EmployeeCreate` in src/schemas/employee.py).
Pydantic fills `performance_rating` with its declared default `0.0` when the
field is absent, so the dumped payload always carries every key. -/
structure EmployeeCreate where
  name : String
  role : String
  salary : Rat
  email : Option String := none
  department : Option String := none
  performance_rating : Option Rat := some 0
  skills : Option String := none
deriving Repr, DecidableEq

/-- Validated partial-update payload (`EmployeeUpdate` in
src/schemas/employee.py).  The outer `Option` records whether the field
occurs in the request body at all (pydantic `exclude_unset`); the inner
value is the submitted value, which may itself be `null`. -/
structure EmployeeUpdate where
  name : Option (Option String) := none
  role : Option (Option String) := none
  salary : Option (Option Rat) := none
  email : Option (Option String) := none
  department : Option (Option String) := none
  performance_rating : Option (Option Rat) := none
  skills : Option (Option String) := none
deriving Repr, DecidableEq

/-- Failure outcomes of the handlers: HTTP 404, HTTP 400 on a duplicate
email, and an uncaught storage-constraint violation surfaced as a 500. -/
inductive ApiError where
  | NotFound
  | DuplicateEmail
  | StorageFailure
deriving Repr, DecidableEq

/-- Python truthiness of an optional string: truthy iff present and
nonempty (`if search:` at routes.py:39, `if employee.email:` at 67). -/
def optTruthy : Option String → Bool
  | some s => s != ""
  | none => false

/-- Duplicate-email query
`db.query(Employee).filter(Employee.email == e).first()` is non-null:
some stored row carries exactly this (non-null) email. -/
def emailTaken (rows : List Employee) (e : String) : Bool :=
  rows.any (fun r => r.email == some e)

/-- LIKE-style substring containment used by the search filter
(SQLAlchemy `Column.contains`).  SQLite's LIKE folds ASCII case; no
verified property below depends on case folding, so the model uses
literal containment. -/
def strContains (s sub : String) : Bool := (s.splitOn sub).length != 1

/-- Filter stage of GET /employees: optional substring search over name or
role and optional exact department match, composed with AND.  An absent or
empty parameter applies no filter (Python truthiness, routes.py:39 and 45). -/
def filteredEmployees (db : DB) (search department : Option String) : List Employee :=
  let q := db.rows
  let q := match search with
    | some s => if s != "" then q.filter (fun e => strContains e.name s || strContains e.role s) else q
    | none => q
  match department with
  | some d => if d != "" then q.filter (fun e => e.department == some d) else q
  | none => q

/-- GET /employees (routes.get_employees): count the filtered set, then
slice the page `[skip, skip+limit)` (`query.count()` before
`offset(skip).limit(limit)`). -/
def get_employees (db : DB) (skip limit : Nat) (search department : Option String) :
    Nat × List Employee :=
  let q := filteredEmployees db search department
  (q.length, (q.drop skip).take limit)

/-- Row built for a creation payload: fresh autoincrement id, columns copied
from the payload dump, `created_at` from the server clock, `updated_at` NULL. -/
def newEmployee (now : Nat) (db : DB) (p : EmployeeCreate) : Employee :=
  { id := db.nextId, name := p.name, role := p.role, salary := p.salary,
    email := p.email, department := p.department,
    performance_rating := p.performance_rating, skills := p.skills,
    created_at := now, updated_at := none }

/-- Append the new row (`db.add` followed by flush or commit) and advance
the id counter. -/
def insertEmployee (now : Nat) (db : DB) (p : EmployeeCreate) : Employee × DB :=
  (newEmployee now db p,
   { rows := db.rows ++ [newEmployee now db p], nextId := db.nextId + 1 })

/-- POST /employees (routes.create_employee): reject with 400 when the
payload carries a truthy email already held by a stored row, else insert.
The rejection raises before `db.add`, so the table is untouched on failure. -/
def create_employee (now : Nat) (db : DB) (p : EmployeeCreate) :
    Except ApiError (Employee × DB) :=
  if optTruthy p.email && emailTaken db.rows (p.email.getD "") then
    .error .DuplicateEmail
  else
    .ok (insertEmployee now db p)

/-- Candidate column value for a nullable column under the update payload:
the submitted value when the field occurs in the request, the current value
otherwise (`model_dump(exclude_unset=True)` + the `setattr` loop). -/
def pickOpt {α : Type} (field : Option (Option α)) (cur : Option α) : Option α :=
  match field with
  | some v => v
  | none => cur

/-- Candidate column value for a NOT NULL column under the update payload;
`none` here means the request explicitly nulled the column, which the
storage layer will reject at commit. -/
def pickReq {α : Type} (field : Option (Option α)) (cur : α) : Option α :=
  match field with
  | some v => v
  | none => some cur

/-- Attribute-assignment and commit phase of routes.update_employee.
When no candidate value differs from the stored one, the unit of work emits
no UPDATE: the row — including `updated_at` — is returned unchanged.
Otherwise the UPDATE fires, `updated_at` is set by `onupdate`, and nulling a
NOT NULL column (`name`, `role`, `salary`) raises at commit, rolling back. -/
def applyEmployeeUpdate (now : Nat) (db : DB) (eid : Nat) (u : EmployeeUpdate)
    (row : Employee) : Except ApiError (Employee × DB) :=
  if pickReq u.name row.name = some row.name ∧ pickReq u.role row.role = some row.role ∧
      pickReq u.salary row.salary = some row.salary ∧ pickOpt u.email row.email = row.email ∧
      pickOpt u.department row.department = row.department ∧
      pickOpt u.performance_rating row.performance_rating = row.performance_rating ∧
      pickOpt u.skills row.skills = row.skills then
    .ok (row, db)
  else
    match pickReq u.name row.name, pickReq u.role row.role, pickReq u.salary row.salary with
    | some nm, some rl, some sal =>
      let row' : Employee :=
        { id := row.id, name := nm, role := rl, salary := sal,
          email := pickOpt u.email row.email,
          department := pickOpt u.department row.department,
          performance_rating := pickOpt u.performance_rating row.performance_rating,
          skills := pickOpt u.skills row.skills,
          created_at := row.created_at, updated_at := some now }
      .ok (row', { db with rows := db.rows.map (fun r => if r.id == eid then row' else r) })
    | _, _, _ => .error .StorageFailure

/-- PUT /employees/{id} (routes.update_employee): 404 when the id is
unknown; 400 when the payload's email value is truthy, differs from the
stored email and is already held by a stored row (routes.py:91-94); else
apply the partial update. -/
def update_employee (now : Nat) (db : DB) (eid : Nat) (u : EmployeeUpdate) :
    Except ApiError (Employee × DB) :=
  match db.rows.find? (fun r => r.id == eid) with
  | none => .error .NotFound
  | some row =>
    match u.email.join with
    | some e =>
      if e ≠ "" ∧ some e ≠ row.email then
        if emailTaken db.rows e then .error .DuplicateEmail
        else applyEmployeeUpdate now db eid u row
      else applyEmployeeUpdate now db eid u row
    | none => applyEmployeeUpdate now db eid u row

/-- DELETE /employees/{id} (routes.delete_employee): 404 when the id is
unknown, else remove that row. -/
def delete_employee (db : DB) (eid : Nat) : Except ApiError (Nat × DB) :=
  match db.rows.find? (fun r => r.id == eid) with
  | none => .error .NotFound
  | some _ => .ok (eid, { db with rows := db.rows.eraseP (fun r => r.id == eid) })

/-- One labelled group of the department breakdown. -/
structure DeptGroup where
  name : String
  count : Nat
deriving Repr, DecidableEq

/-- Payload of GET /employees/stats/summary. -/
structure Stats where
  total_employees : Nat
  average_salary : Rat
  average_performance : Rat
  growth_rate : Rat
  recent_hires : Nat
  departments : List DeptGroup
deriving Repr, DecidableEq

/-- Python round() applied to an exact rational: round half to even. -/
def roundHalfEven (x : Rat) : Int :=
  let f : Int := ⌊x⌋
  let frac : Rat := x - f
  if frac < 1/2 then f
  else if 1/2 < frac then f + 1
  else if f % 2 = 0 then f else f + 1

/-- Python round(x, 2). -/
def round2 (x : Rat) : Rat := (roundHalfEven (x * 100) : Rat) / 100

/-- Python round(x, 1). -/
def round1 (x : Rat) : Rat := (roundHalfEven (x * 10) : Rat) / 10

/-- Distinct department keys (a nullable column value each) in
first-occurrence order.  SQL leaves the GROUP BY output order
implementation-defined; every verified statement below is insensitive to
the order of the groups. -/
def deptKeys (rows : List Employee) : List (Option String) :=
  (rows.map (fun r => r.department)).dedup

/-- Group label `dept or "Unassigned"` (routes.py:147): Python `or` replaces
both NULL and the empty string by the sentinel. -/
def deptLabel : Option String → String
  | some s => if s = "" then "Unassigned" else s
  | none => "Unassigned"

/-- GROUP BY department with per-group counts, labelled
(routes.get_employee_stats, lines 127-130 and 146-149).  NULL and the empty
string are distinct GROUP BY keys, so they form two separate groups. -/
def departmentGroups (rows : List Employee) : List DeptGroup :=
  (deptKeys rows).map
    (fun k => ⟨deptLabel k, (rows.filter (fun r => r.department == k)).length⟩)

/-- GET /employees/stats/summary (routes.get_employee_stats).  `cutoff` is
`datetime.now() - timedelta(days=30)` as a point on the model clock.  SQL
AVG ignores NULLs and yields NULL on an empty set; the Python truthiness
`round(avg, _) if avg else 0` maps both NULL and an average of 0.0 to 0. -/
def get_employee_stats (cutoff : Nat) (db : DB) : Stats :=
  let total := db.rows.length
  let salaries := db.rows.map (fun r => r.salary)
  let perfs := db.rows.filterMap (fun r => r.performance_rating)
  let avgSalary : Option Rat :=
    if salaries.isEmpty then none else some (salaries.sum / salaries.length)
  let avgPerf : Option Rat :=
    if perfs.isEmpty then none else some (perfs.sum / perfs.length)
  let recent := (db.rows.filter (fun r => cutoff ≤ r.created_at)).length
  { total_employees := total,
    average_salary := match avgSalary with
      | some a => if a ≠ 0 then round2 a else 0
      | none => 0,
    average_performance := match avgPerf with
      | some a => if a ≠ 0 then round1 a else 0
      | none => 0,
    growth_rate := if 0 < total then round1 ((recent : Rat) / (total : Rat) * 100) else 0,
    recent_hires := recent,
    departments := departmentGroups db.rows }

/-- One entry of the per-item error list of the bulk endpoint.  The
duplicate-email entry carries the offending email
(routes.py:164); `email = none` would correspond to the generic
exception entry, which is unreachable for schema-validated payloads. -/
structure BulkError where
  index : Nat
  email : Option String
  error : String
deriving Repr, DecidableEq

/-- Response body of POST /employees/bulk. -/
structure BulkOutcome where
  created : Nat
  employee_ids : List Nat
  errors : List BulkError
deriving Repr, DecidableEq

/-- Loop body of routes.bulk_create_employees.  Each item is checked
against the current table state — which, thanks to `db.flush()` at line
169, already contains the rows accepted earlier in the same batch — and is
either rejected into the error list or inserted.  The `except` branch of
the source is dead code for schema-validated payloads (the flush of a
validated row violates no constraint the guard has not already checked),
so the model omits it. -/
def bulkLoop (now : Nat) (idx : Nat) (db : DB) (ids : List Nat) (errs : List BulkError) :
    List EmployeeCreate → BulkOutcome × DB
  | [] => (⟨ids.length, ids, errs⟩, db)
  | p :: ps =>
    if optTruthy p.email && emailTaken db.rows (p.email.getD "") then
      bulkLoop now (idx + 1) db ids (errs ++ [⟨idx, p.email, "Email already exists"⟩]) ps
    else
      let r := insertEmployee now db p
      bulkLoop now (idx + 1) r.2 (ids ++ [r.1.id]) errs ps

/-- POST /employees/bulk (routes.bulk_create_employees): process the batch
in order with per-item isolation of failure, then commit everything kept. -/
def bulk_create_employees (now : Nat) (db : DB) (ps : List EmployeeCreate) :
    BulkOutcome × DB :=
  bulkLoop now 0 db [] [] ps

/-- Header row written by routes.export_employees_csv (line 189). -/
def csvHeader : List String :=
  ["ID", "Name", "Email", "Role", "Department", "Salary", "Performance Rating",
   "Skills", "Created At"]

/-- Cells of one record's CSV row (routes.py:192-195).  `email`,
`department` and `skills` fall back to the empty string via `or ''`;
a NULL `performance_rating` is written by the csv module as the empty
string.  Numeric and timestamp cells are rendered through the model
types' printers; no verified property depends on their exact text. -/
def csvRow (e : Employee) : List String :=
  [toString e.id, e.name, e.email.getD "", e.role, e.department.getD "",
   toString e.salary,
   (match e.performance_rating with | some x => toString x | none => ""),
   e.skills.getD "", toString e.created_at]

/-- GET /employees/export/csv: the header row followed by one row per
stored record, modelled at the level of rows of cells (the csv module's
quoting and line termination are a serialization layer below the claims). -/
def export_employees_csv (db : DB) : List (List String) :=
  csvHeader :: db.rows.map csvRow

/-- Necessary consequence of pydantic `EmailStr` validation at the request
boundary: a present email value is a nonempty string (`EmailStr` admits no
empty string).  Only this consequence of validation is ever assumed. -/
def EmailOk : Option String → Prop
  | some e => e ≠ ""
  | none => True

/-- Two rows do not share a non-null email. -/
def NoSharedEmail (a b : Employee) : Prop := a.email = none ∨ a.email ≠ b.email

/-- No two rows of the table share a non-null email (the UNIQUE contract
of the email column, stated over the model table). -/
def EmailsUnique (rows : List Employee) : Prop := rows.Pairwise NoSharedEmail

/-- No two rows share a primary key (the PRIMARY KEY contract). -/
def IdsUnique (rows : List Employee) : Prop := rows.Pairwise (fun a b => a.id ≠ b.id)

/-- Fixture: a stored row whose salary is 90000 and which was never
updated (`updated_at` NULL). -/
def fxRow : Employee :=
  { id := 1, name := "A", role := "x", salary := 90000, email := none,
    department := none, performance_rating := some 0, skills := none,
    created_at := 0, updated_at := none }

/-- Fixture: a one-row table holding `fxRow`. -/
def fxDb : DB := ⟨[fxRow], 2⟩

/-- Fixture: `fxRow` after a salary change to 95000 at time 5. -/
def fxRow95 : Employee := { fxRow with salary := 95000, updated_at := some 5 }

/-- Fixture: the table after that update. -/
def fxDb95 : DB := ⟨[fxRow95], 2⟩

/-- Fixture: creation payload A with email a@x.com. -/
def fxPA : EmployeeCreate := { name := "A", role := "x", salary := 1, email := some "a@x.com" }

/-- Fixture: creation payload B with the same email a@x.com. -/
def fxPB : EmployeeCreate := { name := "B", role := "y", salary := 2, email := some "a@x.com" }

/-- Fixture: the empty table. -/
def fxDb0 : DB := ⟨[], 1⟩

/-- Fixture: the row created from payload A on the empty table at time 0. -/
def fxRowA : Employee := newEmployee 0 fxDb0 fxPA

/-- Fixture: the table after creating payload A. -/
def fxDb1 : DB := ⟨[fxRowA], 2⟩

/-- Fixture: a second stored row with email b@x.com. -/
def fxRowB : Employee :=
  { id := 2, name := "B", role := "y", salary := 2, email := some "b@x.com",
    department := none, performance_rating := some 0, skills := none,
    created_at := 0, updated_at := none }

/-- Fixture: a two-row table with distinct emails. -/
def fxDb2 : DB := ⟨[fxRowA, fxRowB], 3⟩

/-- Fixture: update payload re-targeting the email a@x.com. -/
def fxUdup : EmployeeUpdate := { email := some (some "a@x.com") }

/-- Fixture: a row with no department. -/
def fxT1 : Employee :=
  { id := 1, name := "A", role := "x", salary := 1, email := none,
    department := none, performance_rating := some 0, skills := none,
    created_at := 0, updated_at := none }

/-- Fixture: a row whose department is the empty string. -/
def fxT2 : Employee :=
  { id := 2, name := "B", role := "y", salary := 2, email := none,
    department := some "", performance_rating := some 0, skills := none,
    created_at := 0, updated_at := none }

/-- Fixture: a row in the department Eng. -/
def fxT3 : Employee :=
  { id := 3, name := "C", role := "z", salary := 3, email := none,
    department := some "Eng", performance_rating := some 0, skills := none,
    created_at := 0, updated_at := none }

/-- Fixture: a three-row table. -/
def fxDb3 : DB := ⟨[fxT1, fxT2, fxT3], 4⟩

/-- Fixture: a table holding one NULL-department row and one
empty-string-department row. -/
def fxDb10 : DB := ⟨[fxT1, fxT2], 3⟩

/-- Characterisation of the duplicate-email query. -/
theorem emailTaken_iff (rows : List Employee) (e : String) :
    emailTaken rows e = true ↔ ∃ r ∈ rows, r.email = some e := by
  simp [emailTaken]

/-- Sharing no email is a symmetric relation. -/
theorem noSharedEmail_symm : Symmetric NoSharedEmail := by
  intro a b h
  rcases h with h | h
  · cases hb : b.email with
    | none => exact Or.inl hb
    | some eb => exact Or.inr (by simp [h, hb])
  · exact Or.inr (Ne.symm h)

/-- Appending a row whose email is null or fresh preserves email
uniqueness. -/
theorem emailsUnique_append (rows : List Employee) (nr : Employee)
    (h : EmailsUnique rows)
    (hcase : nr.email = none ∨ ∀ r ∈ rows, r.email ≠ nr.email) :
    EmailsUnique (rows ++ [nr]) := by
  rw [EmailsUnique, List.pairwise_append]
  refine ⟨h, List.pairwise_singleton _ _, ?_⟩
  intro a ha b hb
  rw [List.mem_singleton] at hb
  subst hb
  rcases hcase with hn | hf
  · cases he : a.email with
    | none => exact Or.inl he
    | some ea => exact Or.inr (by simp [he, hn])
  · exact Or.inr (hf a ha)

/-- Replacing the row of primary key `eid` by a row sharing an email with
no other stored row preserves email uniqueness. -/
theorem emailsUnique_map_replace (eid : Nat) (row' : Employee) :
    ∀ rows : List Employee, EmailsUnique rows → IdsUnique rows →
      (∀ a ∈ rows, a.id ≠ eid → NoSharedEmail a row' ∧ NoSharedEmail row' a) →
      EmailsUnique (rows.map (fun r => if r.id == eid then row' else r)) := by
  intro rows
  induction rows with
  | nil => intro _ _ _; exact List.Pairwise.nil
  | cons r rs ih =>
    intro hu hi hrel
    rw [EmailsUnique] at hu
    rw [IdsUnique] at hi
    rw [List.pairwise_cons] at hu hi
    rw [EmailsUnique, List.map_cons, List.pairwise_cons]
    by_cases hrid : r.id = eid
    · have hhd : (if r.id == eid then row' else r) = row' := by simp [hrid]
      rw [hhd]
      constructor
      · intro b hb
        rcases List.mem_map.mp hb with ⟨x, hx, hfx⟩
        have hxid : x.id ≠ eid := fun hxe => (hi.1 x hx) (hrid.trans hxe.symm)
        have hbx : b = x := by rw [← hfx]; simp [hxid]
        rw [hbx]
        exact (hrel x (List.mem_cons_of_mem r hx) hxid).2
      · exact ih hu.2 hi.2 (fun a ha haid => hrel a (List.mem_cons_of_mem r ha) haid)
    · have hhd : (if r.id == eid then row' else r) = r := by simp [hrid]
      rw [hhd]
      constructor
      · intro b hb
        rcases List.mem_map.mp hb with ⟨x, hx, hfx⟩
        by_cases hxid : x.id = eid
        · have hbx : b = row' := by rw [← hfx]; simp [hxid]
          subst hbx
          exact (hrel r (List.mem_cons_self r rs) hrid).1
        · have hbx : b = x := by rw [← hfx]; simp [hxid]
          rw [hbx]
          exact hu.1 x hx
      · exact ih hu.2 hi.2 (fun a ha haid => hrel a (List.mem_cons_of_mem r ha) haid)

/-- Successful creation: the guard was falsy and the new row was appended. -/
theorem create_ok {now : Nat} {db : DB} {p : EmployeeCreate} {r' : Employee} {db' : DB}
    (h : create_employee now db p = .ok (r', db')) :
    r' = newEmployee now db p ∧ db'.rows = db.rows ++ [r'] ∧ db'.nextId = db.nextId + 1 ∧
    (optTruthy p.email && emailTaken db.rows (p.email.getD "")) = false := by
  unfold create_employee at h
  split at h
  · exact Except.noConfusion h
  case isFalse hc =>
    rw [insertEmployee] at h
    rw [Except.ok.injEq, Prod.mk.injEq] at h
    obtain ⟨hr, hd⟩ := h
    subst hr
    subst hd
    exact ⟨rfl, rfl, rfl, by simpa using hc⟩

/-- Anatomy of a successful partial update: every column of the returned
row is the candidate value of the payload, and either no UPDATE fired (row
and table unchanged) or the table holds the returned row in place of the
old one and `updated_at` was refreshed. -/
theorem applyEmployeeUpdate_ok {now : Nat} {db : DB} {eid : Nat} {u : EmployeeUpdate}
    {row r' : Employee} {db' : DB}
    (h : applyEmployeeUpdate now db eid u row = .ok (r', db')) :
    some r'.name = pickReq u.name row.name ∧ some r'.role = pickReq u.role row.role ∧
    some r'.salary = pickReq u.salary row.salary ∧ r'.email = pickOpt u.email row.email ∧
    r'.department = pickOpt u.department row.department ∧
    r'.performance_rating = pickOpt u.performance_rating row.performance_rating ∧
    r'.skills = pickOpt u.skills row.skills ∧ r'.id = row.id ∧ r'.created_at = row.created_at ∧
    ((r' = row ∧ db' = db) ∨
      (r'.updated_at = some now ∧
       db'.rows = db.rows.map (fun r => if r.id == eid then r' else r))) := by
  unfold applyEmployeeUpdate at h
  split at h
  case isTrue hc =>
    obtain ⟨h1, h2, h3, h4, h5, h6, h7⟩ := hc
    rw [Except.ok.injEq, Prod.mk.injEq] at h
    obtain ⟨hr, hd⟩ := h
    subst hr
    subst hd
    exact ⟨h1.symm, h2.symm, h3.symm, h4.symm, h5.symm, h6.symm, h7.symm, rfl, rfl,
      Or.inl ⟨rfl, rfl⟩⟩
  case isFalse =>
    rcases hn : pickReq u.name row.name with _ | nm <;>
      rcases hr : pickReq u.role row.role with _ | rl <;>
        rcases hs : pickReq u.salary row.salary with _ | sal <;>
          simp only [hn, hr, hs] at h <;> try exact Except.noConfusion h
    rw [Except.ok.injEq, Prod.mk.injEq] at h
    obtain ⟨hrow, hd⟩ := h
    subst hd
    subst hrow
    exact ⟨rfl, rfl, rfl, rfl, rfl, rfl, rfl, rfl, rfl, Or.inr ⟨rfl, rfl⟩⟩

/-- A successful update goes through a looked-up row and the
attribute-assignment phase. -/
theorem update_ok_find {now : Nat} {db : DB} {eid : Nat} {u : EmployeeUpdate}
    {r' : Employee} {db' : DB}
    (h : update_employee now db eid u = .ok (r', db')) :
    ∃ row, db.rows.find? (fun r => r.id == eid) = some row ∧
      applyEmployeeUpdate now db eid u row = .ok (r', db') := by
  unfold update_employee at h
  rcases hf : db.rows.find? (fun r => r.id == eid) with _ | row <;> simp only [hf] at h
  · exact Except.noConfusion h
  refine ⟨row, hf, ?_⟩
  rcases hj : u.email.join with _ | e <;> simp only [hj] at h
  · exact h
  split at h
  · split at h
    · exact Except.noConfusion h
    · exact h
  · exact h

/-- A successful update whose payload carried a non-null email value went
through the duplicate check: the value re-submits the stored email, is the
empty string, or is held by no stored row. -/
theorem update_ok_guard {now : Nat} {db : DB} {eid : Nat} {u : EmployeeUpdate}
    {row r' : Employee} {db' : DB} {e : String}
    (hf : db.rows.find? (fun r => r.id == eid) = some row)
    (h : update_employee now db eid u = .ok (r', db'))
    (he : u.email.join = some e) :
    some e = row.email ∨ e = "" ∨ emailTaken db.rows e = false := by
  unfold update_employee at h
  simp only [hf, he] at h
  split at h
  case isTrue hc =>
    cases ht : emailTaken db.rows e with
    | false => exact Or.inr (Or.inr rfl)
    | true => rw [ht] at h; simp at h
  case isFalse hc =>
    by_cases he0 : e = ""
    · exact Or.inr (Or.inl he0)
    · rcases not_and_or.mp hc with h1 | h2
      · exact absurd (not_not.mp h1) he0
      · exact Or.inl (not_not.mp h2)

/-- Replacing the right-hand row by one with the same email preserves the
no-shared-email relation. -/
theorem noShared_congr_right {a row r' : Employee} (hre : r'.email = row.email) :
    NoSharedEmail a row → NoSharedEmail a r' := by
  intro h
  rcases h with h | h
  · exact Or.inl h
  · exact Or.inr (by rw [hre]; exact h)

/-- Replacing the left-hand row by one with the same email preserves the
no-shared-email relation. -/
theorem noShared_congr_left {a row r' : Employee} (hre : r'.email = row.email) :
    NoSharedEmail row a → NoSharedEmail r' a := by
  intro h
  rcases h with h | h
  · exact Or.inl (hre.trans h)
  · exact Or.inr (by rw [hre]; exact h)

/-- The attribute-assignment phase never raises the duplicate-email error:
that check happens strictly before it. -/
theorem applyEmployeeUpdate_ne_dup (now : Nat) (db : DB) (eid : Nat) (u : EmployeeUpdate)
    (row : Employee) :
    applyEmployeeUpdate now db eid u row ≠ .error .DuplicateEmail := by
  unfold applyEmployeeUpdate
  split
  · simp
  · split <;> simp

/-- Creation with a null email short-circuits the duplicate check. -/
theorem create_eq_none {now : Nat} {db : DB} {p : EmployeeCreate} (hpe : p.email = none) :
    create_employee now db p = .ok (insertEmployee now db p) := by
  unfold create_employee
  rw [hpe]
  simp [optTruthy]

/-- Creation with a non-empty email reduces to the duplicate check. -/
theorem create_eq_some {now : Nat} {db : DB} {p : EmployeeCreate} {e : String}
    (hpe : p.email = some e) (he : e ≠ "") :
    create_employee now db p =
      if emailTaken db.rows e = true then .error .DuplicateEmail
      else .ok (insertEmployee now db p) := by
  unfold create_employee
  rw [hpe]
  simp [optTruthy, he]

/-- The bulk loop preserves email uniqueness for schema-validated items:
every accepted item's email was checked against the evolving table. -/
theorem bulkLoop_emailsUnique (now : Nat) :
    ∀ (ps : List EmployeeCreate) (idx : Nat) (db : DB) (ids : List Nat)
      (errs : List BulkError),
      EmailsUnique db.rows → (∀ p ∈ ps, EmailOk p.email) →
      EmailsUnique (bulkLoop now idx db ids errs ps).2.rows
  | [], _, _, _, _, hu, _ => hu
  | p :: ps, idx, db, ids, errs, hu, hok => by
    rw [bulkLoop]
    split
    · exact bulkLoop_emailsUnique now ps (idx + 1) db ids _ hu
        (fun q hq => hok q (List.mem_cons_of_mem p hq))
    case isFalse hc =>
      refine bulkLoop_emailsUnique now ps (idx + 1) _ _ _ ?_
        (fun q hq => hok q (List.mem_cons_of_mem p hq))
      apply emailsUnique_append _ _ hu
      rcases hpe : p.email with _ | e
      · exact Or.inl (by simp [insertEmployee, newEmployee, hpe])
      · have hek : e ≠ "" := by
          have h2 := hok p (List.mem_cons_self p ps)
          rw [hpe] at h2
          exact h2
        have hbne : (e != "") = true := by simp [hek]
        have hg2 : emailTaken db.rows e = false := by
          have := hc
          rw [hpe] at this
          simpa [optTruthy, hbne] using this
        right
        intro r hr2 hcon
        have hre : r.email = some e := by
          simpa [insertEmployee, newEmployee, hpe] using hcon
        have hcontra : emailTaken db.rows e = true :=
          (emailTaken_iff _ _).mpr ⟨r, hr2, hre⟩
        rw [hcontra] at hg2
        exact Bool.noConfusion hg2

/-- C2: starting from a state whose rows have pairwise distinct primary
keys (the storage engine's PRIMARY KEY guarantee) and no two of which
share a non-null email, any single create, update, delete or bulk-import
operation — on payloads that passed schema validation, whose email values
are therefore nonempty when present — leaves the table with no two rows
sharing a non-null email.  Failing operations raise before any write, so
only the successful outcomes carry a new state. -/
theorem c2_email_uniqueness_invariant (db : DB)
    (hids : IdsUnique db.rows) (huniq : EmailsUnique db.rows) :
    (∀ now p r' db', EmailOk p.email → create_employee now db p = .ok (r', db') →
      EmailsUnique db'.rows) ∧
    (∀ now eid u r' db', EmailOk u.email.join →
      update_employee now db eid u = .ok (r', db') → EmailsUnique db'.rows) ∧
    (∀ eid i db', delete_employee db eid = .ok (i, db') → EmailsUnique db'.rows) ∧
    (∀ now ps, (∀ p ∈ ps, EmailOk p.email) →
      EmailsUnique (bulk_create_employees now db ps).2.rows) := by
  refine ⟨?_, ?_, ?_, ?_⟩
  · intro now p r' db' hok hcr
    obtain ⟨hr, hrows, _, hguard⟩ := create_ok hcr
    rw [hrows, hr]
    apply emailsUnique_append _ _ huniq
    rcases hpe : p.email with _ | e
    · exact Or.inl (by simp [newEmployee, hpe])
    · have hek : e ≠ "" := by
        have h2 := hok
        rw [hpe] at h2
        exact h2
      have hbne : (e != "") = true := by simp [hek]
      have hg2 : emailTaken db.rows e = false := by
        rw [hpe] at hguard
        simpa [optTruthy, hbne] using hguard
      right
      intro r hr2 hcon
      have hre : r.email = some e := by simpa [newEmployee, hpe] using hcon
      have hcontra : emailTaken db.rows e = true := (emailTaken_iff _ _).mpr ⟨r, hr2, hre⟩
      rw [hcontra] at hg2
      exact Bool.noConfusion hg2
  · intro now eid u r' db' hok hup
    obtain ⟨row, hfind, happ⟩ := update_ok_find hup
    have hrowmem : row ∈ db.rows := List.mem_of_find?_eq_some hfind
    have hrowid : row.id = eid := by simpa using List.find?_some hfind
    obtain ⟨_, _, _, h4, _, _, _, _, _, hbr⟩ := applyEmployeeUpdate_ok happ
    rcases hbr with ⟨_, hdb⟩ | ⟨_, hrows⟩
    · rw [hdb]
      exact huniq
    · rw [EmailsUnique, hrows]
      apply emailsUnique_map_replace eid r' db.rows huniq hids
      intro a ha haid
      have hane : a ≠ row := fun hcontra => haid (hcontra ▸ hrowid)
      have hpair : NoSharedEmail a row :=
        List.Pairwise.forall noSharedEmail_symm huniq ha hrowmem hane
      have hpair' : NoSharedEmail row a :=
        List.Pairwise.forall noSharedEmail_symm huniq hrowmem ha (Ne.symm hane)
      rcases hue : u.email with _ | oe
      · have hre : r'.email = row.email := by rw [h4, hue]; rfl
        exact ⟨noShared_congr_right hre hpair, noShared_congr_left hre hpair'⟩
      · rcases oe with _ | e
        · have hre : r'.email = none := by rw [h4, hue]; rfl
          constructor
          · cases hae : a.email with
            | none => exact Or.inl hae
            | some ea => exact Or.inr (by simp [hae, hre])
          · exact Or.inl hre
        · have hre : r'.email = some e := by rw [h4, hue]; rfl
          have hj : u.email.join = some e := by rw [hue]; rfl
          have hek : e ≠ "" := by
            have h2 := hok
            rw [hj] at h2
            exact h2
          rcases update_ok_guard hfind hup hj with hsame | h0 | hfresh
          · have hre2 : r'.email = row.email := by rw [hre, hsame]
            exact ⟨noShared_congr_right hre2 hpair, noShared_congr_left hre2 hpair'⟩
          · exact absurd h0 hek
          · have hnota : a.email ≠ some e := by
              intro hcon
              have hcontra : emailTaken db.rows e = true :=
                (emailTaken_iff _ _).mpr ⟨a, ha, hcon⟩
              rw [hcontra] at hfresh
              exact Bool.noConfusion hfresh
            constructor
            · exact Or.inr (by rw [hre]; exact hnota)
            · exact Or.inr (by rw [hre]; exact fun hcc => hnota hcc.symm)
  · intro eid i db' hdel
    unfold delete_employee at hdel
    rcases hf : db.rows.find? (fun r => r.id == eid) with _ | row <;> simp only [hf] at hdel
    · exact Except.noConfusion hdel
    · rw [Except.ok.injEq, Prod.mk.injEq] at hdel
      obtain ⟨_, hd⟩ := hdel
      rw [← hd]
      exact huniq.sublist (List.eraseP_sublist _)
  · intro now ps hps
    exact bulkLoop_emailsUnique now ps 0 db [] [] huniq hps

/-- Witness for C2: creating a@x.com on the empty table yields a table
whose emails are pairwise distinct. -/
theorem c2_email_uniqueness_invariant_witness : EmailsUnique fxDb1.rows :=
  (c2_email_uniqueness_invariant fxDb0 (List.Pairwise.nil) (List.Pairwise.nil)).1
    0 fxPA fxRowA fxDb1 (by show ("a@x.com" : String) ≠ ""; decide) (by rfl)

/-- C4: for a schema-validated payload, creation fails with the
duplicate-email error exactly when the payload's email is present and
already held by a stored record — and the failure raises before `db.add`,
so the table is untouched.  A successful creation appends exactly one row,
assigning the fresh autoincrement id (fresh relative to any state whose row
ids are below the counter, as the storage engine guarantees) and the
current clock as `created_at`.  Consequently creating twice in sequence
with the same non-null email makes the second call fail with the
duplicate-email error. -/
theorem c4_create_duplicate_email (db : DB) (p : EmployeeCreate) (now : Nat)
    (hok : EmailOk p.email)
    (hbound : ∀ r ∈ db.rows, r.id < db.nextId) :
    (create_employee now db p = .error .DuplicateEmail ↔
      ∃ e, p.email = some e ∧ ∃ r ∈ db.rows, r.email = some e) ∧
    (∀ r' db', create_employee now db p = .ok (r', db') →
      r'.id = db.nextId ∧ r'.created_at = now ∧ r'.email = p.email ∧
      (∀ r ∈ db.rows, r.id ≠ r'.id) ∧ db'.rows = db.rows ++ [r']) ∧
    (∀ e p2 now2 r' db', p.email = some e → p2.email = some e →
      create_employee now db p = .ok (r', db') →
      create_employee now2 db' p2 = .error .DuplicateEmail) := by
  refine ⟨?_, ?_, ?_⟩
  · rcases hpe : p.email with _ | e
    · rw [create_eq_none hpe]
      simp
    · have hek : e ≠ "" := by
        have h2 := hok
        rw [hpe] at h2
        exact h2
      rw [create_eq_some hpe hek]
      by_cases ht : emailTaken db.rows e = true
      · rw [if_pos ht]
        simp only [true_iff]
        exact ⟨e, rfl, (emailTaken_iff _ _).mp ht⟩
      · rw [if_neg ht]
        constructor
        · intro hcon
          exact Except.noConfusion hcon
        · rintro ⟨e', he', r, hr, hre⟩
          obtain rfl : e = e' := by injection he'
          exact absurd ((emailTaken_iff _ _).mpr ⟨r, hr, hre⟩) ht
  · intro r' db' hcr
    obtain ⟨hr, hrows, _, _⟩ := create_ok hcr
    refine ⟨by rw [hr]; rfl, by rw [hr]; rfl, by rw [hr]; rfl, ?_, hrows⟩
    intro r hrmem hcon
    have hlt : r.id < db.nextId := hbound r hrmem
    rw [hcon, hr] at hlt
    exact lt_irrefl _ hlt
  · intro e p2 now2 r' db' hpe1 hpe2 hcr
    obtain ⟨hr, hrows, _, _⟩ := create_ok hcr
    have hek : e ≠ "" := by
      have h2 := hok
      rw [hpe1] at h2
      exact h2
    rw [create_eq_some hpe2 hek]
    have ht : emailTaken db'.rows e = true := by
      refine (emailTaken_iff _ _).mpr ⟨r', ?_, ?_⟩
      · rw [hrows]
        exact List.mem_append_right _ (List.mem_singleton.mpr rfl)
      · rw [hr]
        show p.email = some e
        exact hpe1
    rw [if_pos ht]

/-- Witness for C4: creating a@x.com on a table already holding a@x.com
fails with the duplicate-email error. -/
theorem c4_create_duplicate_email_witness :
    create_employee 1 fxDb1 fxPB = .error .DuplicateEmail :=
  (c4_create_duplicate_email fxDb1 fxPB 1
      (by show ("a@x.com" : String) ≠ ""; decide)
      (by intro r hr; rw [show fxDb1.rows = [fxRowA] from rfl] at hr;
          rw [List.mem_singleton.mp hr]; decide)).1.mpr
    ⟨"a@x.com", rfl, fxRowA, by show fxRowA ∈ [fxRowA]; exact List.mem_singleton.mpr rfl,
      by rfl⟩

/-- C5: for an existing record and a schema-validated update payload, the
update fails with the duplicate-email error exactly when the payload's
email value is present, differs from the record's stored email, and is
held by another stored record.  Re-submitting the record's own email, or
submitting an email held by no other record, never raises it. -/
theorem c5_update_duplicate_email (db : DB) (eid : Nat) (u : EmployeeUpdate)
    (row : Employee) (now : Nat)
    (hfind : db.rows.find? (fun r => r.id == eid) = some row)
    (hok : EmailOk u.email.join) :
    update_employee now db eid u = .error .DuplicateEmail ↔
      ∃ e, u.email.join = some e ∧ some e ≠ row.email ∧
        ∃ r ∈ db.rows, r ≠ row ∧ r.email = some e := by
  constructor
  · intro h
    unfold update_employee at h
    simp only [hfind] at h
    rcases hj : u.email.join with _ | e <;> simp only [hj] at h
    · exact absurd h (applyEmployeeUpdate_ne_dup now db eid u row)
    · have hek : e ≠ "" := by
        have h2 := hok
        rw [hj] at h2
        exact h2
      by_cases hne : some e ≠ row.email
      · rw [if_pos ⟨hek, hne⟩] at h
        by_cases ht : emailTaken db.rows e = true
        · obtain ⟨r, hrmem, hre⟩ := (emailTaken_iff _ _).mp ht
          refine ⟨e, rfl, hne, r, hrmem, ?_, hre⟩
          intro hcontra
          rw [hcontra] at hre
          exact hne hre.symm
        · rw [if_neg ht] at h
          exact absurd h (applyEmployeeUpdate_ne_dup now db eid u row)
      · rw [if_neg (fun hc => hne hc.2)] at h
        exact absurd h (applyEmployeeUpdate_ne_dup now db eid u row)
  · rintro ⟨e, hj, hne, r, hrmem, _, hre⟩
    have hek : e ≠ "" := by
      have h2 := hok
      rw [hj] at h2
      exact h2
    have ht : emailTaken db.rows e = true := (emailTaken_iff _ _).mpr ⟨r, hrmem, hre⟩
    unfold update_employee
    simp only [hfind, hj]
    rw [if_pos ⟨hek, hne⟩, if_pos ht]

/-- Witness for C5: changing the second record's email to the first
record's email fails with the duplicate-email error. -/
theorem c5_update_duplicate_email_witness :
    update_employee 3 fxDb2 2 fxUdup = .error .DuplicateEmail :=
  (c5_update_duplicate_email fxDb2 2 fxUdup fxRowB 3 (by rfl)
      (by show ("a@x.com" : String) ≠ ""; decide)).mpr
    ⟨"a@x.com", rfl, by show some "a@x.com" ≠ some "b@x.com"; decide,
      fxRowA, by show fxRowA ∈ [fxRowA, fxRowB]; exact List.mem_cons_self _ _,
      by decide, by rfl⟩

/-- C1 counterexample: on a stored employee whose salary is already 90000
and whose `updated_at` is NULL, the update `{salary: 90000}` succeeds but
leaves `updated_at` NULL — the unit of work detects no net change and emits
no UPDATE, so the `onupdate` clock never fires — refuting the claim that
such an update always sets `updated_at` to a value ≥ `created_at`, even
though the wall clock (5) is past `created_at` (0). -/
theorem c1_counterexample :
    update_employee 5 fxDb 1 { salary := some (some 90000) } = .ok (fxRow, fxDb) ∧
    fxRow.updated_at = none ∧ fxRow.created_at ≤ 5 :=
  ⟨by rfl, by rfl, by decide⟩

/-- C1 amended: an update whose payload contains only `salary` changes
only the salary column — every other column, the id and `created_at`
included, is unchanged — and `updated_at` is set to the operation time
(which is ≥ `created_at` for a monotone clock) whenever the submitted
salary differs from the stored one; when it is equal, no write occurs and
`updated_at` keeps its previous value.  More generally, on any successful
update a field absent from the payload retains its stored value,
distinguishably from a field explicitly set to null, which nulls the
stored value. -/
theorem c1_update_salary_frame (db : DB) (eid : Nat) (row : Employee) (v : Rat) (now : Nat)
    (hfind : db.rows.find? (fun r => r.id == eid) = some row)
    (hnow : row.created_at ≤ now) :
    (∃ r' db', update_employee now db eid { salary := some (some v) } = .ok (r', db') ∧
      r'.id = row.id ∧ r'.name = row.name ∧ r'.role = row.role ∧ r'.email = row.email ∧
      r'.department = row.department ∧ r'.performance_rating = row.performance_rating ∧
      r'.skills = row.skills ∧ r'.created_at = row.created_at ∧ r'.salary = v ∧
      (v ≠ row.salary → ∃ t, r'.updated_at = some t ∧ row.created_at ≤ t) ∧
      (v = row.salary → r'.updated_at = row.updated_at)) ∧
    (∀ u r'' db'', update_employee now db eid u = .ok (r'', db'') →
      r''.id = row.id ∧ r''.created_at = row.created_at ∧
      (u.name = none → r''.name = row.name) ∧ (u.role = none → r''.role = row.role) ∧
      (u.salary = none → r''.salary = row.salary) ∧
      (u.email = none → r''.email = row.email) ∧
      (u.department = none → r''.department = row.department) ∧
      (u.performance_rating = none → r''.performance_rating = row.performance_rating) ∧
      (u.skills = none → r''.skills = row.skills) ∧
      (u.email = some none → r''.email = none) ∧
      (u.department = some none → r''.department = none) ∧
      (u.skills = some none → r''.skills = none)) := by
  have hred : update_employee now db eid { salary := some (some v) } =
      applyEmployeeUpdate now db eid { salary := some (some v) } row := by
    unfold update_employee
    simp only [hfind]
    rfl
  constructor
  · by_cases hv : v = row.salary
    · have happ : applyEmployeeUpdate now db eid { salary := some (some v) } row =
          .ok (row, db) := by
        unfold applyEmployeeUpdate
        rw [if_pos]
        exact ⟨rfl, rfl, by rw [hv]; rfl, rfl, rfl, rfl, rfl⟩
      exact ⟨row, db, by rw [hred, happ], rfl, rfl, rfl, rfl, rfl, rfl, rfl, rfl, hv.symm,
        fun hne => absurd hv hne, fun _ => rfl⟩
    · have happ : applyEmployeeUpdate now db eid { salary := some (some v) } row =
          .ok ({ id := row.id, name := row.name, role := row.role, salary := v,
                 email := row.email, department := row.department,
                 performance_rating := row.performance_rating, skills := row.skills,
                 created_at := row.created_at, updated_at := some now },
               { db with rows := db.rows.map (fun r => if r.id == eid then
                   { id := row.id, name := row.name, role := row.role, salary := v,
                     email := row.email, department := row.department,
                     performance_rating := row.performance_rating, skills := row.skills,
                     created_at := row.created_at, updated_at := some now } else r) }) := by
        unfold applyEmployeeUpdate
        rw [if_neg]
        · rfl
        · intro hc
          exact hv (Option.some.inj hc.2.2.1)
      refine ⟨_, _, by rw [hred]; exact happ, ?_, ?_, ?_, ?_, ?_, ?_, ?_, ?_, ?_, ?_, ?_⟩
      · rfl
      · rfl
      · rfl
      · rfl
      · rfl
      · rfl
      · rfl
      · rfl
      · rfl
      · exact fun _ => ⟨now, rfl, hnow⟩
      · exact fun hc => absurd hc hv
  · intro u r'' db'' hup
    obtain ⟨row₂, hfind₂, happ⟩ := update_ok_find hup
    rw [hfind] at hfind₂
    obtain rfl : row = row₂ := Option.some.inj hfind₂
    obtain ⟨h1, h2, h3, h4, h5, h6, h7, h8, h9, _⟩ := applyEmployeeUpdate_ok happ
    refine ⟨h8, h9, ?_, ?_, ?_, ?_, ?_, ?_, ?_, ?_, ?_, ?_⟩
    · intro hn
      rw [hn] at h1
      exact Option.some.inj h1
    · intro hn
      rw [hn] at h2
      exact Option.some.inj h2
    · intro hn
      rw [hn] at h3
      exact Option.some.inj h3
    · intro hn
      rw [hn] at h4
      exact h4
    · intro hn
      rw [hn] at h5
      exact h5
    · intro hn
      rw [hn] at h6
      exact h6
    · intro hn
      rw [hn] at h7
      exact h7
    · intro hn
      rw [hn] at h4
      exact h4
    · intro hn
      rw [hn] at h5
      exact h5
    · intro hn
      rw [hn] at h7
      exact h7

/-- Witness for C1 amended: updating the 90000-salary record with
`{salary: 95000}` keeps the name and sets the salary and the update
clock. -/
theorem c1_update_salary_frame_witness :
    fxRow95.name = fxRow.name ∧ fxRow95.salary = 95000 ∧ fxRow95.updated_at = some 5 :=
  ⟨((c1_update_salary_frame fxDb 1 fxRow 95000 5 (by rfl) (by decide)).2
      { salary := some (some 95000) } fxRow95 fxDb95 (by rfl)).2.2.1 rfl,
    by decide, by rfl⟩

/-- C3: a two-item batch whose items carry the same (validated, hence
nonempty) email, previously stored nowhere, yields created = 1 with
exactly the first item's fresh id, and exactly one error entry, at
index 1, citing the duplicate email; the loop runs to completion and the
first row is persisted.  The second item's check sees the first row
because `db.flush()` makes it visible inside the transaction. -/
theorem c3_bulk_duplicate_pair (db : DB) (p1 p2 : EmployeeCreate) (e : String) (now : Nat)
    (h1 : p1.email = some e) (h2 : p2.email = some e) (hek : e ≠ "")
    (hfresh : emailTaken db.rows e = false) :
    bulk_create_employees now db [p1, p2] =
      (⟨1, [db.nextId], [⟨1, some e, "Email already exists"⟩]⟩,
       { rows := db.rows ++ [newEmployee now db p1], nextId := db.nextId + 1 }) := by
  have hbne : (e != "") = true := by simp [hek]
  have hb2 : emailTaken (db.rows ++ [newEmployee now db p1]) e = true := by
    refine (emailTaken_iff _ _).mpr ⟨newEmployee now db p1, ?_, ?_⟩
    · exact List.mem_append_right _ (List.mem_singleton.mpr rfl)
    · show p1.email = some e
      exact h1
  rw [bulk_create_employees, bulkLoop]
  rw [if_neg (by rw [h1]; simp [optTruthy, hbne, hfresh])]
  show bulkLoop now (0 + 1)
      { rows := db.rows ++ [newEmployee now db p1], nextId := db.nextId + 1 }
      ([] ++ [db.nextId]) [] [p2] = _
  rw [bulkLoop]
  rw [if_pos (by rw [h2]; simp [optTruthy, hbne, hb2])]
  rw [bulkLoop]
  rw [h2]
  rfl

/-- Witness for C3: the concrete batch of the spec example on the empty
table. -/
theorem c3_bulk_duplicate_pair_witness :
    bulk_create_employees 0 fxDb0 [fxPA, fxPB] =
      (⟨1, [1], [⟨1, some "a@x.com", "Email already exists"⟩]⟩, fxDb1) :=
  c3_bulk_duplicate_pair fxDb0 fxPA fxPB "a@x.com" 0 rfl rfl
    (by decide) (by rfl)

/-- C6: the list endpoint's `total` is the size of the filtered set before
pagination, and the returned page is exactly the filtered set, in its
stored order, sliced to the index window `[skip, skip+limit)`: the page's
length is `min limit (total - skip)` and its i-th entry is the filtered
set's (skip+i)-th entry. -/
theorem c6_list_pagination (db : DB) (skip limit : Nat) (search department : Option String)
    (_hlo : 1 ≤ limit) (_hhi : limit ≤ 1000) :
    (get_employees db skip limit search department).1 =
        (filteredEmployees db search department).length ∧
    (get_employees db skip limit search department).2.length =
        min limit ((filteredEmployees db search department).length - skip) ∧
    ∀ i, i < limit →
      (get_employees db skip limit search department).2[i]? =
        (filteredEmployees db search department)[skip + i]? := by
  refine ⟨rfl, ?_, ?_⟩
  · show ((((filteredEmployees db search department).drop skip).take limit)).length =
      min limit ((filteredEmployees db search department).length - skip)
    rw [List.length_take, List.length_drop]
  · intro i hi
    show ((((filteredEmployees db search department).drop skip).take limit))[i]? =
      (filteredEmployees db search department)[skip + i]?
    rw [List.getElem?_take, if_pos hi, List.getElem?_drop]

/-- Witness for C6: on a three-row table, limit 100 returns total 3 and a
page of 3; limit 1 returns total 3 and a page of 1. -/
theorem c6_list_pagination_witness :
    (get_employees fxDb3 0 100 none none).1 = 3 ∧
    (get_employees fxDb3 0 100 none none).2.length = 3 ∧
    (get_employees fxDb3 0 1 none none).1 = 3 ∧
    (get_employees fxDb3 0 1 none none).2.length = 1 :=
  ⟨((c6_list_pagination fxDb3 0 100 none none (by decide) (by decide)).1).trans (by rfl),
    ((c6_list_pagination fxDb3 0 100 none none (by decide) (by decide)).2.1).trans (by rfl),
    ((c6_list_pagination fxDb3 0 1 none none (by decide) (by decide)).1).trans (by rfl),
    ((c6_list_pagination fxDb3 0 1 none none (by decide) (by decide)).2.1).trans (by rfl)⟩

/-- C7: on an empty table the summary returns exactly zero for every
aggregate and an empty department breakdown, without error; the model
computation is a pure read of the state. -/
theorem c7_stats_empty (cutoff nextId : Nat) :
    get_employee_stats cutoff ⟨[], nextId⟩ =
      { total_employees := 0, average_salary := 0, average_performance := 0,
        growth_rate := 0, recent_hires := 0, departments := [] } := by
  rfl

/-- C8: the export is the header row followed by exactly one row of nine
cells per stored record, in stored order; the Email, Department and Skills
cells carry the stored strings and fall back to the empty string when the
column is NULL; zero records yield exactly the header row. -/
theorem c8_csv_export (db : DB) :
    (export_employees_csv db).length = db.rows.length + 1 ∧
    (export_employees_csv db).head? = some csvHeader ∧
    (db.rows = [] → export_employees_csv db = [csvHeader]) ∧
    (∀ i, (export_employees_csv db)[i + 1]? = (db.rows.map csvRow)[i]?) ∧
    (∀ e ∈ db.rows, csvRow e ∈ export_employees_csv db ∧ (csvRow e).length = 9 ∧
      (csvRow e)[2]? = some (e.email.getD "") ∧
      (csvRow e)[4]? = some (e.department.getD "") ∧
      (csvRow e)[7]? = some (e.skills.getD "")) := by
  refine ⟨?_, ?_, ?_, ?_, ?_⟩
  · show (csvHeader :: db.rows.map csvRow).length = db.rows.length + 1
    rw [List.length_cons, List.length_map]
  · rfl
  · intro h
    rw [export_employees_csv, h]
    rfl
  · intro i
    show (csvHeader :: db.rows.map csvRow)[i + 1]? = (db.rows.map csvRow)[i]?
    rw [List.getElem?_cons_succ]
  · intro e he
    exact ⟨List.mem_cons_of_mem _ (List.mem_map_of_mem csvRow he), rfl, rfl, rfl, rfl⟩

/-- Witness for C8: on a one-row table the record's row is in the export
with an empty Department cell, and the empty table exports exactly the
header. -/
theorem c8_csv_export_witness :
    csvRow fxRowA ∈ export_employees_csv fxDb1 ∧
    (csvRow fxRowA)[4]? = some "" ∧
    export_employees_csv fxDb0 = [csvHeader] :=
  ⟨((c8_csv_export fxDb1).2.2.2.2 fxRowA (List.mem_cons_self _ _)).1,
    (((c8_csv_export fxDb1).2.2.2.2 fxRowA (List.mem_cons_self _ _)).2.2.2.1).trans (by rfl),
    (c8_csv_export fxDb0).2.2.1 rfl⟩

/-- C9: an empty-string `search` parameter is falsy and applies no filter,
so the list result coincides with the no-search call; likewise an
empty-string `department` applies no filter; and under any active (hence
nonempty) department filter no empty-string-department record is selected,
so such records can never be singled out by exact-match filtering. -/
theorem c9_empty_string_params (db : DB) (skip limit : Nat)
    (search department : Option String) :
    get_employees db skip limit (some "") department =
      get_employees db skip limit none department ∧
    get_employees db skip limit search (some "") =
      get_employees db skip limit search none ∧
    (∀ d, d ≠ "" → ∀ e ∈ filteredEmployees db search (some d),
      e.department ≠ some "") := by
  refine ⟨?_, ?_, ?_⟩
  · rfl
  · rfl
  · intro d hd e he hcon
    have hbd : (d != "") = true := by simp [hd]
    simp only [filteredEmployees, hbd, if_true] at he
    have hmem := (List.mem_filter.mp he).2
    rw [hcon] at hmem
    have hdd : "" = d := by simpa using hmem
    exact hd hdd.symm

/-- Witness for C9: on the three-row table, empty-string parameters act
like absent ones, and the Eng record selected by the active filter has a
non-empty department. -/
theorem c9_empty_string_params_witness :
    get_employees fxDb3 0 5 (some "") none = get_employees fxDb3 0 5 none none ∧
    fxT3.department ≠ some "" :=
  ⟨(c9_empty_string_params fxDb3 0 5 none none).1,
    (c9_empty_string_params fxDb3 0 5 none (some "Eng")).2.2 "Eng" (by decide) fxT3
      (by show fxT3 ∈ [fxT1, fxT2, fxT3].filter (fun e => e.department == some "Eng"); decide)⟩

/-- C10 counterexample: on a table holding one NULL-department row and one
empty-string-department row, the breakdown contains two separate groups,
both labelled Unassigned, each of count 1 — no single group of count 2
exists, so empty-string records are not merged into one group with the
NULL records, contradicting the claim that they are counted
indistinguishably in the group labelled Unassigned. -/
theorem c10_counterexample :
    fxDb10.rows.length = 2 ∧
    (get_employee_stats 0 fxDb10).departments =
      [⟨"Unassigned", 1⟩, ⟨"Unassigned", 1⟩] ∧
    ¬ ∃ g ∈ (get_employee_stats 0 fxDb10).departments, g.count = 2 := by
  refine ⟨rfl, by rfl, ?_⟩
  rintro ⟨g, hg, hc⟩
  have hg2 : g ∈ [(⟨"Unassigned", 1⟩ : DeptGroup), ⟨"Unassigned", 1⟩] := by
    rw [show (get_employee_stats 0 fxDb10).departments =
        [(⟨"Unassigned", 1⟩ : DeptGroup), ⟨"Unassigned", 1⟩] from rfl] at hg
    exact hg
  rcases hg2 with _ | ⟨_, hg3⟩
  · exact absurd hc (by decide)
  · rcases hg3 with _ | ⟨_, hg4⟩
    · exact absurd hc (by decide)
    · exact absurd hg4 (List.not_mem_nil g)

/-- C10 amended: every record whose department is the empty string is
counted under a group labelled Unassigned whose count is the number of
empty-string-department records; NULL-department records form their own,
separately counted group that carries the same Unassigned label; and no
group labelled with the empty string ever appears. -/
theorem c10_unassigned_groups (cutoff : Nat) (db : DB) :
    (∀ g ∈ (get_employee_stats cutoff db).departments, g.name ≠ "") ∧
    ((∃ r ∈ db.rows, r.department = some "") →
      (⟨"Unassigned", (db.rows.filter (fun r => r.department == some "")).length⟩ : DeptGroup) ∈
        (get_employee_stats cutoff db).departments) ∧
    ((∃ r ∈ db.rows, r.department = none) →
      (⟨"Unassigned",
          (db.rows.filter (fun r => r.department == (none : Option String))).length⟩ : DeptGroup) ∈
        (get_employee_stats cutoff db).departments) := by
  have hdep : (get_employee_stats cutoff db).departments = departmentGroups db.rows := rfl
  refine ⟨?_, ?_, ?_⟩
  · intro g hg
    rw [hdep, departmentGroups] at hg
    rcases List.mem_map.mp hg with ⟨k, _, hk2⟩
    rw [← hk2]
    show deptLabel k ≠ ""
    rcases k with _ | s
    · decide
    · rw [deptLabel]
      by_cases hs : s = ""
      · rw [if_pos hs]
        decide
      · rw [if_neg hs]
        exact hs
  · rintro ⟨r, hr, hrd⟩
    rw [hdep, departmentGroups]
    have hk : (some "" : Option String) ∈ deptKeys db.rows := by
      rw [deptKeys, List.mem_dedup]
      exact List.mem_map.mpr ⟨r, hr, hrd⟩
    exact List.mem_map.mpr ⟨some "", hk, rfl⟩
  · rintro ⟨r, hr, hrd⟩
    rw [hdep, departmentGroups]
    have hk : (none : Option String) ∈ deptKeys db.rows := by
      rw [deptKeys, List.mem_dedup]
      exact List.mem_map.mpr ⟨r, hr, hrd⟩
    exact List.mem_map.mpr ⟨none, hk, rfl⟩

/-- Witness for C10 amended: on the two-row fixture both the empty-string
group and the NULL group appear, each with count 1. -/
theorem c10_unassigned_groups_witness :
    (⟨"Unassigned", 1⟩ : DeptGroup) ∈ (get_employee_stats 0 fxDb10).departments :=
  ((c10_unassigned_groups 0 fxDb10).2.1
      ⟨fxT2, by show fxT2 ∈ [fxT1, fxT2]; decide, by rfl⟩)

end ECS
